import Mathlib

/-!
Verification of the Kolosal sequential-workflow client: a shallow embedding
of the workflow model, registrar, execution strategies and result
normalizer from `simple_workflow_client.py`, `sequential_workflow_demo.py`
and `sequential_workflow_demo_updated.py`, with theorems about the
registration/cleanup protocol, agent-name resolution, the result
normalizer, the streaming state machine and the fallback ladder.
-/

set_option maxRecDepth 4000

namespace Kolosal

/-- JSON values as produced by `json.loads` / sent by `json=` bodies.
Numbers are modelled as rationals (the client only ever compares and
copies them). -/
inductive Json where
  | null : Json
  | bool (b : Bool) : Json
  | num (q : Rat) : Json
  | str (s : String) : Json
  | arr (elems : List Json) : Json
  | obj (fields : List (String × Json)) : Json

/-- Python `d.get(key)` on a dict represented as an insertion-ordered
association list (keys unique in every dict that arrives from
`json.loads`): first matching key. -/
def getVal : List (String × Json) → String → Option Json
  | [], _ => none
  | (k, v) :: rest, key => if k = key then some v else getVal rest key

/-- Python `d[key] = v`: replace the value in place if the key exists,
otherwise append the new key at the end (insertion order). -/
def setVal : List (String × Json) → String → Json → List (String × Json)
  | [], key, v => [(key, v)]
  | (k, w) :: rest, key, v =>
      if k = key then (key, v) :: rest else (k, w) :: setVal rest key v

/-- Python `d.update(other)`: assign `other`'s entries into `d` in order. -/
def pyUpdate (d other : List (String × Json)) : List (String × Json) :=
  other.foldl (fun acc kv => setVal acc kv.1 kv.2) d

/-- Python truthiness of a JSON-derived value (`if x:`). -/
def pyTruthy : Json → Bool
  | Json.null => false
  | Json.bool b => b
  | Json.num q => q ≠ 0
  | Json.str s => s ≠ ""
  | Json.arr [] => false
  | Json.arr (_ :: _) => true
  | Json.obj [] => false
  | Json.obj (_ :: _) => true

/-- Python `j == "s"` for a value decoded from JSON: true exactly when
the value is the string `s`. -/
def Json.isStr : Json → String → Bool
  | Json.str t, s => t = s
  | _, _ => false

/-- Whitespace for Python `str.strip()`. -/
def wsChar (c : Char) : Bool :=
  c = ' ' || c = '\t' || c = '\n' || c = '\x0d' || c = '\x0b' || c = '\x0c'

/-- Python `str.strip()`: drop whitespace from both ends. -/
def pyStrip (s : String) : String :=
  String.mk (((s.data.dropWhile wsChar).reverse.dropWhile wsChar).reverse)

/-- Character-list prefix test. -/
def leadsWith : List Char → List Char → Bool
  | _, [] => true
  | [], _ :: _ => false
  | c :: cs, p :: ps => c = p && leadsWith cs ps

/-- Python `s.startswith(pre)`. -/
def pyStartsWith (s pre : String) : Bool :=
  leadsWith s.data pre.data

/-- Python `s[n:]` (drop the first `n` characters). -/
def pyDropChars (s : String) (n : Nat) : String :=
  String.mk (s.data.drop n)

/-- Python `s.lower()` for the ASCII header values the client compares. -/
def pyLower (s : String) : String :=
  String.mk (s.data.map Char.toLower)

/-- Substring search over character lists. -/
def hasSub (pat : List Char) : List Char → Bool
  | [] => leadsWith [] pat
  | c :: rest => leadsWith (c :: rest) pat || hasSub pat rest

/-- Python `pat in s` for strings (substring containment). -/
def strContains (s pat : String) : Bool :=
  hasSub pat.data s.data

/-- Accumulator loop for splitting on newlines, keeping empty segments. -/
def splitNlAux : List Char → List Char → List String
  | [], acc => [String.mk acc.reverse]
  | c :: rest, acc =>
      if c = '\n' then String.mk acc.reverse :: splitNlAux rest []
      else splitNlAux rest (c :: acc)

/-- Python `s.split('\n')`. -/
def pySplitNl (s : String) : List String :=
  splitNlAux s.data []

/-- Python `s.replace(pat, rep)` for a non-empty pattern, fuelled by the
input length (each step consumes at least one character). -/
def replaceAux (pat rep : List Char) : Nat → List Char → List Char
  | _, [] => []
  | 0, s => s
  | Nat.succ fuel, c :: rest =>
      if leadsWith (c :: rest) pat then
        rep ++ replaceAux pat rep fuel ((c :: rest).drop pat.length)
      else c :: replaceAux pat rep fuel rest

/-- Python `s.replace(pat, rep)` (identity on the empty pattern, which
the client never uses). -/
def pyReplace (s pat rep : String) : String :=
  match pat.data with
  | [] => s
  | p :: ps => String.mk (replaceAux (p :: ps) rep.data s.data.length s.data)

/-- Python `str.title()` restricted to the ASCII identifiers the client
feeds it: a letter is uppercased when the previous character is not a
letter and lowercased otherwise. -/
def pyTitle (s : String) : String :=
  String.mk (go s.data false)
where
  go : List Char → Bool → List Char
    | [], _ => []
    | c :: rest, prevAlpha =>
        if c.isAlpha then
          (if prevAlpha then c.toLower else c.toUpper) :: go rest true
        else
          c :: go rest false

/-- Name to uuid lookup in the agent directory cache
(`self._agents_cache.get(name)` / `agent_mapping` membership). -/
def lookupStr : List (String × String) → String → Option String
  | [], _ => none
  | (k, v) :: rest, key => if k = key then some v else lookupStr rest key

/-! ## Workflow model (`simple_workflow_client.py`) -/

/-- The `WorkflowStep` dataclass. `temperature` is the float field,
carried as a rational since the client only stores and serializes it. -/
structure WorkflowStep where
  step_id : String
  agent_name : String
  prompt : String
  function_name : String := "inference"
  timeout_seconds : Int := 60
  max_retries : Int := 2
  temperature : Rat := 7 / 10
  max_tokens : Int := 1000
  parameters : List (String × Json) := []

/-- The `base_params` dict literal of `WorkflowStep.to_dict(agent_id)`,
before `base_params.update(self.parameters)` overlays it. -/
def WorkflowStep.baseParams (s : WorkflowStep) : List (String × Json) :=
  [("prompt", Json.str s.prompt),
   ("model", Json.str "default"),
   ("max_tokens", Json.num s.max_tokens),
   ("temperature", Json.num s.temperature)]

/-- `WorkflowStep.to_dict(agent_id)`: the full API payload for one step. -/
def WorkflowStep.toDict (s : WorkflowStep) (agentId : String) : List (String × Json) :=
  [("step_id", Json.str s.step_id),
   ("step_name", Json.str (pyTitle (pyReplace s.step_id "_" " "))),
   ("description", Json.str ("Execute " ++ s.function_name ++ " using " ++ s.agent_name)),
   ("agent_id", Json.str agentId),
   ("function_name", Json.str s.function_name),
   ("timeout_seconds", Json.num s.timeout_seconds),
   ("max_retries", Json.num s.max_retries),
   ("continue_on_failure", Json.bool false),
   ("parameters", Json.obj (pyUpdate s.baseParams s.parameters))]

/-- The `SimpleWorkflow` dataclass. -/
structure SimpleWorkflow where
  workflow_id : String
  workflow_name : String
  description : String := ""
  steps : List WorkflowStep := []
  global_context : List (String × Json) := []
  stop_on_failure : Bool := true
  max_execution_time_seconds : Int := 300

/-- `SimpleWorkflow.add_step(step_id, agent_name, prompt, **kwargs)` with
default keyword arguments: appends a fresh step. -/
def SimpleWorkflow.addStep (w : SimpleWorkflow) (stepId agentName prompt : String) :
    SimpleWorkflow :=
  { w with steps := w.steps ++ [{ step_id := stepId, agent_name := agentName, prompt := prompt }] }

/-- A sequence of `add_step` calls (fluent interface), each identified by
its `(step_id, agent_name, prompt)` positional arguments. -/
def SimpleWorkflow.addSteps (w : SimpleWorkflow) :
    List (String × String × String) → SimpleWorkflow
  | [] => w
  | (sid, an, p) :: rest => (w.addStep sid an p).addSteps rest

/-! ## HTTP request traces

Each client operation is embedded as a function of the statuses/bodies the
server would answer with, returning its result together with the ordered
list of requests it issued. -/

/-- The requests the orchestration layer can issue, in the order they hit
the network. -/
inductive WfRequest where
  | postRegister (workflowId : String)
  | deleteWorkflow (workflowId : String)
  | getWorkflow (workflowId : String)
  | postExecuteStream (workflowId : String)
  | getStatus (workflowId : String)
  | postExecuteSync (workflowId : String)
  deriving DecidableEq, Repr

/-- Number of registration POSTs in a trace. -/
def countRegister (reqs : List WfRequest) : Nat :=
  (reqs.filter fun r => match r with | WfRequest.postRegister _ => true | _ => false).length

/-- Number of streaming execute POSTs in a trace. -/
def countStream (reqs : List WfRequest) : Nat :=
  (reqs.filter fun r => match r with | WfRequest.postExecuteStream _ => true | _ => false).length

/-- Number of synchronous execute POSTs in a trace. -/
def countSync (reqs : List WfRequest) : Nat :=
  (reqs.filter fun r => match r with | WfRequest.postExecuteSync _ => true | _ => false).length

/-- Number of invocations of the remote "execute" semantic (streaming or
synchronous) in a trace. -/
def countExecute (reqs : List WfRequest) : Nat :=
  countStream reqs + countSync reqs

/-! ## Registrar (`SimpleWorkflowClient._register_workflow_with_cleanup`) -/

/-- `_register_workflow_with_cleanup`: POST; on 201 succeed; on 409 DELETE
(200/204/404 all treated as "now absent") and re-POST exactly once, the
re-POST's 201 deciding the outcome; any other status is a hard failure.
`s1`, `s2`, `s3` are the statuses the server would answer to the first
POST, the DELETE, and the re-POST. -/
def registerWithCleanup (wid : String) (s1 s2 s3 : Nat) : Bool × List WfRequest :=
  if s1 == 201 then
    (true, [WfRequest.postRegister wid])
  else if s1 == 409 then
    if s2 == 200 || s2 == 204 || s2 == 404 then
      (s3 == 201, [WfRequest.postRegister wid, WfRequest.deleteWorkflow wid,
                   WfRequest.postRegister wid])
    else
      (false, [WfRequest.postRegister wid, WfRequest.deleteWorkflow wid])
  else
    (false, [WfRequest.postRegister wid])

/-! ## Agent name resolution (`SimpleWorkflowClient._convert_workflow_to_api`) -/

/-- The loop body of `_convert_workflow_to_api`: resolve every step's
`agent_name` through the cache, aborting with `None` on the first step
whose lookup is missing or falsy (`if not agent_id`). -/
def convertSteps (cache : List (String × String)) : List WorkflowStep → Option (List Json)
  | [] => some []
  | s :: rest =>
      match lookupStr cache s.agent_name with
      | none => none
      | some aid =>
          if aid = "" then none
          else (convertSteps cache rest).map (Json.obj (s.toDict aid) :: ·)

/-- `_convert_workflow_to_api`: the full API payload, or `None` when any
agent name is unresolvable. -/
def convertWorkflowToApi (cache : List (String × String)) (w : SimpleWorkflow) :
    Option Json :=
  (convertSteps cache w.steps).map fun apiSteps =>
    Json.obj
      [("workflow_id", Json.str w.workflow_id),
       ("workflow_name", Json.str w.workflow_name),
       ("description", Json.str w.description),
       ("stop_on_failure", Json.bool w.stop_on_failure),
       ("max_execution_time_seconds", Json.num w.max_execution_time_seconds),
       ("global_context", Json.obj w.global_context),
       ("steps", Json.arr apiSteps)]

/-! ## Synchronous execution -/

/-- The guarded unwrap in `SimpleWorkflowClient._execute_sync`:
`if isinstance(result, dict) and 'data' in result: result = result['data']`. -/
def unwrapDataGuarded (j : Json) : Json :=
  match j with
  | Json.obj fs => (getVal fs "data").getD (Json.obj fs)
  | _ => j

/-- `SimpleWorkflowClient._execute_sync`: one POST of the execute
endpoint; on 200 parse the body (`body? = none` models a `.json()` decode
error, swallowed into `None` by the enclosing `except`) and unwrap the
`data` envelope; any other status returns `None` with no retry. -/
def executeSyncSimple (wid : String) (status : Nat) (body? : Option Json) :
    Option Json × List WfRequest :=
  ( if status == 200 then
      match body? with
      | some j => some (unwrapDataGuarded j)
      | none => none
    else none
  , [WfRequest.postExecuteSync wid])

/-- `client.execute_workflow(workflow, streaming=False)`: convert (abort
on unresolved agent with no network call), register with cleanup, then
execute synchronously. -/
def clientExecuteSync (cache : List (String × String)) (w : SimpleWorkflow)
    (reg : Nat × Nat × Nat) (syncStatus : Nat) (syncBody? : Option Json) :
    Option Json × List WfRequest :=
  match convertWorkflowToApi cache w with
  | none => (none, [])
  | some _ =>
      let (ok, regReqs) := registerWithCleanup w.workflow_id reg.1 reg.2.1 reg.2.2
      if ok then
        let (r, reqs) := executeSyncSimple w.workflow_id syncStatus syncBody?
        (r, regReqs ++ reqs)
      else (none, regReqs)

/-! ## Result normalizer (`SequentialWorkflowDemo.execute_workflow`, 200 branch) -/

/-- The demo's `data` unwrap: applied only when the body is a dict whose
`data` entry is itself a dict. -/
def unwrapDataObj (body : List (String × Json)) : List (String × Json) :=
  match getVal body "data" with
  | some (Json.obj d) => d
  | _ => body

/-- First present key among `step_results`, `steps`, `executed_steps`,
`results`, in that order - the probe order of the demo's fallback for
missing step results. -/
def probeFirst (u : List (String × Json)) : Option Json :=
  match getVal u "step_results" with
  | some v => some v
  | none =>
      match getVal u "steps" with
      | some v => some v
      | none =>
          match getVal u "executed_steps" with
          | some v => some v
          | none => getVal u "results"

/-- The backfill pattern `if key not in result: result[key] = value`. -/
def backfill (l : List (String × Json)) (k : String) (v : Json) :
    List (String × Json) :=
  if (getVal l k).isNone then setVal l k v else l

/-- The three metadata backfills of the demo's 200 branch:
`total_execution_time_ms` from the client-measured wall clock,
`workflow_id` from the call argument, `workflow_name` from the
title-cased id. -/
def metaFill (wid : String) (execMs : Rat) (r0 : List (String × Json)) :
    List (String × Json) :=
  backfill
    (backfill
      (backfill r0 "total_execution_time_ms" (Json.num execMs))
      "workflow_id" (Json.str wid))
    "workflow_name" (Json.str (pyTitle (pyReplace wid "_" " ")))

/-- The `step_results` fallback of the demo's 200 branch: when
`step_results` is absent, copy the first present of `steps`,
`executed_steps`, `results` into it (first key wins, loop `break`). -/
def fillStepResults (r3 : List (String × Json)) : List (String × Json) :=
  if (getVal r3 "step_results").isNone then
    match getVal r3 "steps" with
    | some v => setVal r3 "step_results" v
    | none =>
        match getVal r3 "executed_steps" with
        | some v => setVal r3 "step_results" v
        | none =>
            match getVal r3 "results" with
            | some v => setVal r3 "step_results" v
            | none => r3
  else r3

/-- The normalization performed by `SequentialWorkflowDemo.execute_workflow`
on a 200 dict body: unwrap one `data` level (when the `data` value is a
dict), backfill `total_execution_time_ms` / `workflow_id` /
`workflow_name` when absent, then fill `step_results` from the first
present of `steps`, `executed_steps`, `results` when `step_results`
itself is absent. -/
def normalizeDemo (wid : String) (execMs : Rat) (body : List (String × Json)) :
    List (String × Json) :=
  fillStepResults (metaFill wid execMs (unwrapDataObj body))

/-- `SequentialWorkflowDemo.execute_workflow`: one POST; on 200 with a
dict body, the normalized body; a non-dict 200 body raises on the first
string-keyed assignment and the `except` turns it into `None`; any
non-200 status returns `None` with no retry. -/
def demoExecuteWorkflow (wid : String) (execMs : Rat) (status : Nat)
    (body? : Option Json) : Option Json × List WfRequest :=
  ( if status == 200 then
      match body? with
      | some (Json.obj fs) => some (Json.obj (normalizeDemo wid execMs fs))
      | _ => none
    else none
  , [WfRequest.postExecuteSync wid])

/-! ## Demo registration path (`SequentialWorkflowDemo`) -/

/-- `SequentialWorkflowDemo.update_workflow_with_agent_ids`, per step: the
step's `agent_id` field initially holds the agent *name*; a name found in
the mapping is replaced by its uuid, an unknown name is logged and left in
place, and the step is kept either way. -/
def updateStepAgent (mapping : List (String × String))
    (step : List (String × Json)) : List (String × Json) :=
  match getVal step "agent_id" with
  | some (Json.str name) =>
      match lookupStr mapping name with
      | some uid => setVal step "agent_id" (Json.str uid)
      | none => step
  | _ => step

/-- `update_workflow_with_agent_ids` over the workflow's step list: never
aborts, never drops a step. -/
def updateWorkflowWithAgentIds (mapping : List (String × String))
    (steps : List (List (String × Json))) : List (List (String × Json)) :=
  steps.map (updateStepAgent mapping)

/-- `SequentialWorkflowDemo.register_workflow_with_cleanup`: substitute
agent ids (never failing), POST (201 = created), verify with a GET
(200 = present); on failure DELETE (200/204/404 = success) and re-POST
plus re-verify once. `reg1 ver1 del reg2 ver2` are the statuses the
server would answer with, in request order. The returned trace lists the
requests actually issued. -/
def demoRegisterWithCleanup (mapping : List (String × String)) (wid : String)
    (steps : List (List (String × Json))) (reg1 ver1 del reg2 ver2 : Nat) :
    Bool × List WfRequest :=
  let _updated := updateWorkflowWithAgentIds mapping steps
  let cleanup : Bool × List WfRequest :=
    if del == 200 || del == 204 || del == 404 then
      if reg2 == 201 then
        (ver2 == 200, [WfRequest.deleteWorkflow wid, WfRequest.postRegister wid,
                       WfRequest.getWorkflow wid])
      else (false, [WfRequest.deleteWorkflow wid, WfRequest.postRegister wid])
    else (false, [WfRequest.deleteWorkflow wid])
  if reg1 == 201 then
    if ver1 == 200 then
      (true, [WfRequest.postRegister wid, WfRequest.getWorkflow wid])
    else
      (cleanup.1, [WfRequest.postRegister wid, WfRequest.getWorkflow wid] ++ cleanup.2)
  else
    (cleanup.1, [WfRequest.postRegister wid] ++ cleanup.2)

/-! ## Simple-client streaming (`SimpleWorkflowClient._execute_streaming`) -/

/-- The complete lines a chunked line-splitter processes: everything up to
the last newline; a trailing unterminated segment never leaves the buffer. -/
def completeLines (s : String) : List String :=
  (pySplitNl s).dropLast

/-- One yield of `_parse_streaming_response` for a stripped line: a
`data:` line yields its parsed JSON when `json.loads` succeeds (`jl`) and
the raw payload text otherwise; any other non-empty line yields itself. -/
def simpleStreamYield (jl : String → Option Json) (rawLine : String) :
    Option (Json ⊕ String) :=
  let line := pyStrip rawLine
  if pyStartsWith line "data:" then
    let d := pyStrip (pyDropChars line 5)
    match jl d with
    | some j => some (Sum.inl j)
    | none => some (Sum.inr d)
  else if line = "" then none
  else some (Sum.inr line)

/-- `_execute_streaming`'s consumption of the yields: raw strings are
printed, and `final_result` is the last yielded value that is a dict. -/
def lastDictYield (ys : List (Json ⊕ String)) : Option Json :=
  (ys.filterMap fun y =>
    match y with
    | Sum.inl (Json.obj fs) => some (Json.obj fs)
    | _ => none).getLast?

/-- `SimpleWorkflowClient._execute_streaming`: one streaming POST; on 200
every complete line of the body is fed to the line parser and the last
dict yielded becomes the result - there is no content-type check and the
raw body is never parsed as a single JSON document. -/
def executeStreamingSimple (jl : String → Option Json) (wid : String)
    (status : Nat) (body : String) : Option Json × List WfRequest :=
  ( if status == 200 then
      lastDictYield ((completeLines body).filterMap (simpleStreamYield jl))
    else none
  , [WfRequest.postExecuteStream wid])

/-! ## Updated-demo SSE state machine
(`UpdatedSequentialWorkflowDemo._stream_workflow_execution`) -/

/-- The mutable loop state of the SSE parsing loop: the active step's
name (`current_step`, any JSON value from the event), its output buffer
(`current_step_output`), the captured terminal result (`final_result`)
and the step counter. -/
structure StreamState where
  currentStep : Option Json
  currentOutput : String
  finalResult : Option Json
  stepCounter : Nat

/-- The state before the first line. -/
def StreamState.init : StreamState :=
  { currentStep := none, currentOutput := "", finalResult := none, stepCounter := 0 }

/-- One iteration of the SSE line loop of
`UpdatedSequentialWorkflowDemo._stream_workflow_execution`. `jl` is
`json.loads` on the stripped payload (`none` = `json.JSONDecodeError`).
`Except.error ()` models an exception escaping the loop (appending a
truthy non-string token), which the function-level `except` turns into a
`None` result with no fallback. Faithful to the `elif` chain of the
source: `step_start` opens a fresh buffer, `step_complete` clears the
active step, `workflow_complete` captures `event_data.get('result',
event_data)`, token/output events append their truthy payload, `error`
only prints, any other dict carrying `final_output` or `step_results` is
captured as the terminal result, a non-dict JSON payload only prints, an
unparseable payload other than the empty string and `'[DONE]'` is
appended to the buffer as raw text, and `event:` / comment / other lines
only print. -/
def processLine (jl : String → Option Json) (st : StreamState) (rawLine : String) :
    Except Unit StreamState :=
  let line := pyStrip rawLine
  if pyStartsWith line "data:" then
    let d := pyStrip (pyDropChars line 5)
    match jl d with
    | some ev =>
        match ev with
        | Json.obj fs =>
            let etype := (getVal fs "type").getD (Json.str "unknown")
            if etype.isStr "step_start" then
              let n := st.stepCounter + 1
              let stepName := (getVal fs "step_name").getD
                (Json.str ("Step " ++ toString n))
              Except.ok { st with stepCounter := n, currentStep := some stepName,
                                  currentOutput := "" }
            else if etype.isStr "step_complete" then
              Except.ok { st with currentStep := none }
            else if etype.isStr "workflow_complete" then
              Except.ok { st with finalResult := some ((getVal fs "result").getD ev) }
            else if etype.isStr "llm_token" || etype.isStr "token" then
              let tok := (getVal fs "token").getD ((getVal fs "content").getD (Json.str ""))
              if pyTruthy tok then
                match tok with
                | Json.str s => Except.ok { st with currentOutput := st.currentOutput ++ s }
                | _ => Except.error ()
              else Except.ok st
            else if etype.isStr "llm_output" || etype.isStr "output" then
              let out := (getVal fs "output").getD ((getVal fs "content").getD (Json.str ""))
              if pyTruthy out then
                match out with
                | Json.str s => Except.ok { st with currentOutput := st.currentOutput ++ s }
                | _ => Except.error ()
              else Except.ok st
            else if etype.isStr "error" then
              Except.ok st
            else if (getVal fs "final_output").isSome || (getVal fs "step_results").isSome then
              Except.ok { st with finalResult := some ev }
            else Except.ok st
        | _ => Except.ok st
    | none =>
        if d ≠ "" && d ≠ "[DONE]" then
          Except.ok { st with currentOutput := st.currentOutput ++ d }
        else Except.ok st
  else
    Except.ok st

/-- The SSE loop from a given state over the complete lines received. -/
def runStreamFrom (jl : String → Option Json) (st : StreamState)
    (lines : List String) : Except Unit StreamState :=
  lines.foldlM (processLine jl) st

/-- The SSE loop from the initial state. -/
def runStream (jl : String → Option Json) (lines : List String) :
    Except Unit StreamState :=
  runStreamFrom jl StreamState.init lines

/-! ## Degenerate (non-SSE) branch and fallback ladder
(`UpdatedSequentialWorkflowDemo._stream_workflow_execution`) -/

/-- Python `'data' in x` followed by `x['data']` on an arbitrary JSON
value, as the non-SSE branch and the sync fallback perform without an
`isinstance` guard: key lookup on a dict, element membership on a list
and substring test on a string raise `TypeError` on the subsequent
indexing (`none`), and `in` itself raises on the remaining types. -/
def pyUnwrapData (j : Json) : Option Json :=
  match j with
  | Json.obj fs => some ((getVal fs "data").getD (Json.obj fs))
  | Json.arr xs => if xs.any (·.isStr "data") then none else some (Json.arr xs)
  | Json.str s => if strContains s "data" then none else some (Json.str s)
  | _ => none

/-- The guard `if final_result and 'final_output' in final_result:` that
precedes the display of the non-SSE branch: a dict passes harmlessly, a
truthy string/list containing `'final_output'` raises on the subsequent
indexing, truthy numbers/booleans raise on `in`, and falsy values skip
the block. `none` = exception (function returns `None`). -/
def finalOutputGate (fr : Json) : Option Json :=
  if pyTruthy fr then
    match fr with
    | Json.obj fs => some (Json.obj fs)
    | Json.str s => if strContains s "final_output" then none else some (Json.str s)
    | Json.arr xs => if xs.any (·.isStr "final_output") then none else some (Json.arr xs)
    | _ => none
  else some fr

/-- The non-SSE branch of `_stream_workflow_execution`: an empty stripped
body is `None`; otherwise the whole body is parsed as one JSON document
(`jl`), its `data` envelope unwrapped, and the result returned after the
display gate. -/
def nonSseResult (jl : String → Option Json) (bodyText : String) : Option Json :=
  if pyStrip bodyText = "" then none
  else
    match jl bodyText with
    | none => none
    | some j =>
        match pyUnwrapData j with
        | none => none
        | some fr => finalOutputGate fr

/-- The streaming HTTP response: status, `Content-Type` header and raw
body text. -/
structure StreamResponse where
  status : Nat
  contentType : String
  body : String

/-- `UpdatedSequentialWorkflowDemo._stream_workflow_execution`: one
streaming POST. Non-200 fails. A non-event-stream content type takes the
whole-body JSON branch with no further requests. Otherwise the SSE loop
runs over the complete lines; an exception escaping the loop skips the
fallback; a loop that ends with no captured result falls back to one GET
of the status endpoint (`stBody? = none` models a raising `.json()`,
which also aborts the sync attempt) and then to one synchronous execute
POST whose 200 body is `data`-unwrapped without an `isinstance` guard. -/
def streamWorkflowExecution (jl : String → Option Json) (wid : String)
    (resp : StreamResponse) (stStatus : Nat) (stBody? : Option Json)
    (syncStatus : Nat) (syncBody? : Option Json) : Option Json × List WfRequest :=
  if resp.status != 200 then
    (none, [WfRequest.postExecuteStream wid])
  else if !strContains (pyLower resp.contentType) "text/event-stream" then
    (nonSseResult jl resp.body, [WfRequest.postExecuteStream wid])
  else
    match runStream jl (completeLines resp.body) with
    | Except.error _ => (none, [WfRequest.postExecuteStream wid])
    | Except.ok st =>
        match st.finalResult with
        | some fr => (some fr, [WfRequest.postExecuteStream wid])
        | none =>
            let afterGet : Option (Option Json) :=
              -- `some r` = the GET try completed with captured result `r`;
              -- `none` = an exception inside the fallback try (no sync attempt).
              if stStatus == 200 then
                match stBody? with
                | none => none
                | some (Json.obj sfs) =>
                    if ((getVal sfs "status").getD Json.null).isStr "completed" then
                      some (some ((getVal sfs "result").getD (Json.obj sfs)))
                    else some none
                | some _ => none
              else some none
            match afterGet with
            | none => (none, [WfRequest.postExecuteStream wid, WfRequest.getStatus wid])
            | some (some r) =>
                (some r, [WfRequest.postExecuteStream wid, WfRequest.getStatus wid])
            | some none =>
                let reqs := [WfRequest.postExecuteStream wid, WfRequest.getStatus wid,
                             WfRequest.postExecuteSync wid]
                if syncStatus == 200 then
                  match syncBody? with
                  | none => (none, reqs)
                  | some j =>
                      match pyUnwrapData j with
                      | none => (none, reqs)
                      | some fr => (some fr, reqs)
                else (none, reqs)

/-- `UpdatedSequentialWorkflowDemo._execute_with_enhanced_streaming`:
convert (aborting with no network call on an unresolved agent), register
through the simple client's cleanup protocol, then stream. -/
def executeWithEnhancedStreaming (jl : String → Option Json)
    (cache : List (String × String)) (w : SimpleWorkflow) (reg : Nat × Nat × Nat)
    (resp : StreamResponse) (stStatus : Nat) (stBody? : Option Json)
    (syncStatus : Nat) (syncBody? : Option Json) : Option Json × List WfRequest :=
  match convertWorkflowToApi cache w with
  | none => (none, [])
  | some _ =>
      let (ok, regReqs) := registerWithCleanup w.workflow_id reg.1 reg.2.1 reg.2.2
      if ok then
        let (r, reqs) := streamWorkflowExecution jl w.workflow_id resp stStatus stBody?
          syncStatus syncBody?
        (r, regReqs ++ reqs)
      else (none, regReqs)

/-- `UpdatedSequentialWorkflowDemo._execute_workflow_with_enhanced_output`
with `streaming=True`: run the enhanced streaming path; when it produces
no result (or raised), retry the whole operation through
`client.execute_workflow(streaming=False)`, which registers again and
issues a further synchronous execute POST. -/
def enhancedOutputExecute (jl : String → Option Json)
    (cache : List (String × String)) (w : SimpleWorkflow) (reg1 : Nat × Nat × Nat)
    (resp : StreamResponse) (stStatus : Nat) (stBody? : Option Json)
    (syncStatus : Nat) (syncBody? : Option Json) (reg2 : Nat × Nat × Nat)
    (sync2Status : Nat) (sync2Body? : Option Json) : Option Json × List WfRequest :=
  let (r1, reqs1) := executeWithEnhancedStreaming jl cache w reg1 resp stStatus stBody?
    syncStatus syncBody?
  match r1 with
  | some r => (some r, reqs1)
  | none =>
      let (r2, reqs2) := clientExecuteSync cache w reg2 sync2Status sync2Body?
      (r2, reqs1 ++ reqs2)

/-! ## Concrete inputs used by witnesses and counterexamples -/

/-- A concrete step whose explicit `parameters` overrides the `prompt`
default. -/
def overrideStep : WorkflowStep :=
  { step_id := "s1", agent_name := "writer", prompt := "orig",
    parameters := [("prompt", Json.str "override")] }

/-- An empty builder workflow. -/
def emptyWorkflow : SimpleWorkflow := { workflow_id := "w1", workflow_name := "W" }

/-- Three `add_step` calls with pairwise distinct step ids. -/
def threeCalls : List (String × String × String) :=
  [("research", "research_assistant", "p1"),
   ("write", "content_creator", "p2"),
   ("review", "qa_specialist", "p3")]

/-- A demo-config step whose `agent_id` field holds the unresolvable
agent name `ghost`. -/
def ghostStep : List (String × Json) :=
  [("step_id", Json.str "s1"), ("agent_id", Json.str "ghost")]

/-- A workflow with a single step bound to the unresolvable agent name
`ghost`. -/
def ghostWorkflow : SimpleWorkflow :=
  { workflow_id := "w1", workflow_name := "W",
    steps := [{ step_id := "s1", agent_name := "ghost", prompt := "p" }] }

/-- A body carrying both `steps` and `results` inside a `data` envelope:
a concrete multi-key input for the probe order. -/
def multiKeyBody : List (String × Json) :=
  [("data", Json.obj
      [("steps", Json.str "FROM_STEPS"), ("results", Json.str "FROM_RESULTS")])]

/-- The scenario body carrying `success` and an empty `step_results`
object, as raw text. -/
def scenarioBodyText : String :=
  "\x7b\"success\":true,\"step_results\":\x7b\x7d\x7d"

/-- The scenario body as the JSON document `json.loads` yields for it. -/
def scenarioJson : Json :=
  Json.obj [("success", Json.bool true), ("step_results", Json.obj [])]

/-- `json.loads` restricted to the strings this scenario parses. -/
def scenarioLoads : String → Option Json :=
  fun s => if s = scenarioBodyText then some scenarioJson else none

/-- The text a single SSE line appends to the active step's output
buffer: the truthy string payload of a `token`/`llm_token` (from `token`,
falling back to `content`) or `output`/`llm_output` (from `output`,
falling back to `content`) event, or the raw payload of a data line whose
JSON parse fails when it is neither empty nor the `'[DONE]'` sentinel. -/
def lineAppend (jl : String → Option Json) (rawLine : String) : Option String :=
  let line := pyStrip rawLine
  if pyStartsWith line "data:" then
    let d := pyStrip (pyDropChars line 5)
    match jl d with
    | some (Json.obj fs) =>
        let etype := (getVal fs "type").getD (Json.str "unknown")
        if etype.isStr "llm_token" || etype.isStr "token" then
          match (getVal fs "token").getD ((getVal fs "content").getD (Json.str "")) with
          | Json.str s0 => if s0 = "" then none else some s0
          | _ => none
        else if etype.isStr "llm_output" || etype.isStr "output" then
          match (getVal fs "output").getD ((getVal fs "content").getD (Json.str "")) with
          | Json.str s0 => if s0 = "" then none else some s0
          | _ => none
        else none
    | some _ => none
    | none => if d ≠ "" && d ≠ "[DONE]" then some d else none
  else none

/-- Concatenation of buffered fragments in arrival order. -/
def concatAll (ss : List String) : String := ss.foldr (· ++ ·) ""

/-- The scenario's `json.loads`: the structured events of the
`step_start` / three tokens / `step_complete` stream; every other
payload - the `'[DONE]'` sentinel included - fails to parse. -/
def scenarioEventLoads : String → Option Json := fun s =>
  if s = "\x7b\"type\":\"step_start\",\"step_name\":\"s1\"\x7d" then
    some (Json.obj [("type", Json.str "step_start"), ("step_name", Json.str "s1")])
  else if s = "\x7b\"type\":\"token\",\"token\":\"a\"\x7d" then
    some (Json.obj [("type", Json.str "token"), ("token", Json.str "a")])
  else if s = "\x7b\"type\":\"token\",\"token\":\"b\"\x7d" then
    some (Json.obj [("type", Json.str "token"), ("token", Json.str "b")])
  else if s = "\x7b\"type\":\"token\",\"token\":\"c\"\x7d" then
    some (Json.obj [("type", Json.str "token"), ("token", Json.str "c")])
  else if s = "\x7b\"type\":\"step_complete\",\"success\":true\x7d" then
    some (Json.obj [("type", Json.str "step_complete"), ("success", Json.bool true)])
  else none

/-- The SSE lines of the spec's scenario: `step_start`, tokens `a`, `b`,
`c`, then `step_complete`, with no `workflow_complete`. -/
def scenarioLines : List String :=
  ["data: \x7b\"type\":\"step_start\",\"step_name\":\"s1\"\x7d",
   "data: \x7b\"type\":\"token\",\"token\":\"a\"\x7d",
   "data: \x7b\"type\":\"token\",\"token\":\"b\"\x7d",
   "data: \x7b\"type\":\"token\",\"token\":\"c\"\x7d",
   "data: \x7b\"type\":\"step_complete\",\"success\":true\x7d"]

/-- The scenario lines with a raw `data: [DONE]` sentinel inserted
between the first two tokens. -/
def doneLines : List String :=
  ["data: \x7b\"type\":\"step_start\",\"step_name\":\"s1\"\x7d",
   "data: \x7b\"type\":\"token\",\"token\":\"a\"\x7d",
   "data: [DONE]",
   "data: \x7b\"type\":\"token\",\"token\":\"b\"\x7d",
   "data: \x7b\"type\":\"step_complete\",\"success\":true\x7d"]

/-- The one-agent directory used by the fallback counterexample. -/
def writerCache : List (String × String) := [("writer", "abc-123")]

/-- The one-step workflow used by the fallback counterexample. -/
def writerWorkflow : SimpleWorkflow :=
  { workflow_id := "w1", workflow_name := "W",
    steps := [{ step_id := "s1", agent_name := "writer", prompt := "do X" }] }

/-- A 200 SSE response whose body carries no terminal result. -/
def emptyStreamResp : StreamResponse :=
  { status := 200, contentType := "text/event-stream", body := "" }

/-! ## Dictionary lemmas -/

theorem getVal_setVal_self (l : List (String × Json)) (k : String) (v : Json) :
    getVal (setVal l k v) k = some v := by
  induction l with
  | nil => simp [setVal, getVal]
  | cons hd tl ih =>
      obtain ⟨a, b⟩ := hd
      by_cases h : a = k
      · simp [setVal, h, getVal]
      · simp [setVal, h, getVal, ih]

theorem getVal_setVal_ne (l : List (String × Json)) (k : String) (v : Json)
    (k' : String) (h : k' ≠ k) : getVal (setVal l k v) k' = getVal l k' := by
  induction l with
  | nil => simp [setVal, getVal, Ne.symm h]
  | cons hd tl ih =>
      obtain ⟨a, b⟩ := hd
      by_cases ha : a = k
      · subst ha
        simp [setVal, getVal, Ne.symm h]
      · simp only [setVal, if_neg ha, getVal]
        by_cases hk' : a = k'
        · simp [hk']
        · simp [hk', ih]

/-! ## C1: the 409 → DELETE → re-POST protocol -/

/-- C1: when the registration POST returns 409, the registrar issues a
DELETE for the same workflow id (200, 204 and 404 all counting as "now
absent") and re-POSTs exactly once; the overall registration succeeds iff
that re-POST returns 201; no input ever makes it issue a third
registration POST; and the 409 / DELETE 404 / re-POST 201 scenario
succeeds after exactly 3 HTTP calls. -/
theorem registrar_conflict_cleanup (wid : String) (s2 s3 : Nat)
    (h : s2 = 200 ∨ s2 = 204 ∨ s2 = 404) :
    ((registerWithCleanup wid 409 s2 s3).2 =
      [WfRequest.postRegister wid, WfRequest.deleteWorkflow wid, WfRequest.postRegister wid])
    ∧ ((registerWithCleanup wid 409 s2 s3).1 = true ↔ s3 = 201)
    ∧ (∀ a b c : Nat, countRegister (registerWithCleanup wid a b c).2 ≤ 2)
    ∧ registerWithCleanup wid 409 404 201 =
        (true, [WfRequest.postRegister wid, WfRequest.deleteWorkflow wid,
                WfRequest.postRegister wid])
    ∧ (registerWithCleanup wid 409 404 201).2.length = 3 := by
  refine ⟨?_, ?_, ?_, ?_, ?_⟩
  · rcases h with h | h | h <;> subst h <;> rfl
  · rcases h with h | h | h <;> subst h <;>
      simp [registerWithCleanup, beq_iff_eq]
  · intro a b c
    unfold registerWithCleanup
    split
    · simp [countRegister]
    · split
      · split
        · simp [countRegister, List.filter]
        · simp [countRegister, List.filter]
      · simp [countRegister]
  · rfl
  · rfl

/-- C1 witness: the protocol at workflow id `w1` with DELETE answering
404 and the re-POST answering 201. -/
theorem registrar_conflict_cleanup_witness :
    ((registerWithCleanup "w1" 409 404 201).2 =
      [WfRequest.postRegister "w1", WfRequest.deleteWorkflow "w1",
       WfRequest.postRegister "w1"])
    ∧ ((registerWithCleanup "w1" 409 404 201).1 = true ↔ (201 : Nat) = 201)
    ∧ (∀ a b c : Nat, countRegister (registerWithCleanup "w1" a b c).2 ≤ 2)
    ∧ registerWithCleanup "w1" 409 404 201 =
        (true, [WfRequest.postRegister "w1", WfRequest.deleteWorkflow "w1",
                WfRequest.postRegister "w1"])
    ∧ (registerWithCleanup "w1" 409 404 201).2.length = 3 :=
  registrar_conflict_cleanup "w1" 404 201 (Or.inr (Or.inr rfl))

/-! ## More dictionary lemmas -/

theorem getVal_eq_none_of_not_mem (l : List (String × Json)) (k : String)
    (h : k ∉ l.map Prod.fst) : getVal l k = none := by
  induction l with
  | nil => rfl
  | cons hd tl ih =>
      obtain ⟨a, b⟩ := hd
      simp only [List.map_cons, List.mem_cons] at h
      push_neg at h
      simp [getVal, Ne.symm h.1, ih h.2]

theorem getVal_pyUpdate (other : List (String × Json)) (d : List (String × Json))
    (k : String) (hnd : (other.map Prod.fst).Nodup) :
    getVal (pyUpdate d other) k =
      match getVal other k with
      | some v => some v
      | none => getVal d k := by
  induction other generalizing d with
  | nil => simp [pyUpdate, getVal]
  | cons hd tl ih =>
      obtain ⟨k0, v0⟩ := hd
      simp only [List.map_cons, List.nodup_cons] at hnd
      have hstep : pyUpdate d ((k0, v0) :: tl) = pyUpdate (setVal d k0 v0) tl := rfl
      rw [hstep, ih (setVal d k0 v0) hnd.2]
      by_cases hk : k0 = k
      · subst hk
        rw [getVal_eq_none_of_not_mem tl k0 hnd.1]
        simp [getVal, getVal_setVal_self]
      · simp [getVal, hk, getVal_setVal_ne d k0 v0 k (Ne.symm hk)]

/-! ## C10: parameter overlay in `WorkflowStep.to_dict` -/

/-- C10: `to_dict` builds the step's `parameters` object by starting from
the defaults (`prompt`, `model`, `max_tokens`, `temperature`) and
overlaying the step's explicit `parameters` dict, so every key present in
`step.parameters` - including `prompt` - overrides the default, while
absent keys keep the default. -/
theorem to_dict_parameter_overlay (s : WorkflowStep) (agentId : String)
    (hnd : (s.parameters.map Prod.fst).Nodup) :
    getVal (s.toDict agentId) "parameters"
        = some (Json.obj (pyUpdate s.baseParams s.parameters))
    ∧ (∀ k v, getVal s.parameters k = some v →
        getVal (pyUpdate s.baseParams s.parameters) k = some v)
    ∧ (∀ k, getVal s.parameters k = none →
        getVal (pyUpdate s.baseParams s.parameters) k = getVal s.baseParams k)
    ∧ getVal s.baseParams "prompt" = some (Json.str s.prompt) := by
  refine ⟨rfl, ?_, ?_, rfl⟩
  · intro k v hk
    rw [getVal_pyUpdate s.parameters s.baseParams k hnd, hk]
  · intro k hk
    rw [getVal_pyUpdate s.parameters s.baseParams k hnd, hk]

/-- C10 witness: a step whose `parameters` overrides `prompt`; the
serialized parameters carry the override, not the default. -/
theorem to_dict_parameter_overlay_witness :
    (getVal (overrideStep.toDict "abc-123") "parameters"
        = some (Json.obj (pyUpdate overrideStep.baseParams overrideStep.parameters)))
    ∧ (∀ k v, getVal overrideStep.parameters k = some v →
        getVal (pyUpdate overrideStep.baseParams overrideStep.parameters) k = some v)
    ∧ (∀ k, getVal overrideStep.parameters k = none →
        getVal (pyUpdate overrideStep.baseParams overrideStep.parameters) k
          = getVal overrideStep.baseParams k)
    ∧ getVal overrideStep.baseParams "prompt" = some (Json.str overrideStep.prompt) :=
  to_dict_parameter_overlay overrideStep "abc-123" (by simp [overrideStep])

/-! ## C9: builder step order and step-id uniqueness -/

/-- C9 counterexample: `add_step` performs no uniqueness check - adding
two steps with the same `step_id` leaves both in the workflow, so the
claimed invariant fails on this two-call builder sequence. -/
theorem builder_duplicate_step_id :
    ((SimpleWorkflow.addSteps { workflow_id := "w1", workflow_name := "W" }
        [("s", "agent_a", "p1"), ("s", "agent_b", "p2")]).steps.map
          WorkflowStep.step_id = ["s", "s"])
    ∧ ¬ (["s", "s"] : List String).Nodup := by
  exact ⟨rfl, by decide⟩

/-- C9 amended: the builder preserves insertion order - after any
sequence of `add_step` calls the step ids are the existing ids followed
by the added ids in call order - and step ids are unique exactly when the
caller supplies pairwise distinct ids (the builder itself enforces
nothing). -/
theorem builder_insertion_order (w : SimpleWorkflow)
    (calls : List (String × String × String)) :
    ((w.addSteps calls).steps.map WorkflowStep.step_id
        = w.steps.map WorkflowStep.step_id ++ calls.map (fun c => c.1))
    ∧ ((w.steps.map WorkflowStep.step_id ++ calls.map (fun c => c.1)).Nodup →
        ((w.addSteps calls).steps.map WorkflowStep.step_id).Nodup) := by
  have horder : ∀ (calls : List (String × String × String)) (w : SimpleWorkflow),
      (w.addSteps calls).steps.map WorkflowStep.step_id
        = w.steps.map WorkflowStep.step_id ++ calls.map (fun c => c.1) := by
    intro calls
    induction calls with
    | nil => intro w; simp [SimpleWorkflow.addSteps]
    | cons c rest ih =>
        intro w
        obtain ⟨sid, an, p⟩ := c
        rw [SimpleWorkflow.addSteps, ih]
        simp [SimpleWorkflow.addStep]
  refine ⟨horder calls w, ?_⟩
  intro h
  rw [horder calls w]
  exact h

/-- C9 witness: three distinct ids added to an empty workflow appear in
call order and are unique. -/
theorem builder_insertion_order_witness :
    ((emptyWorkflow.addSteps threeCalls).steps.map WorkflowStep.step_id
        = emptyWorkflow.steps.map WorkflowStep.step_id ++ threeCalls.map (fun c => c.1))
    ∧ ((emptyWorkflow.addSteps threeCalls).steps.map WorkflowStep.step_id).Nodup :=
  ⟨(builder_insertion_order emptyWorkflow threeCalls).1,
   (builder_insertion_order emptyWorkflow threeCalls).2 (by decide)⟩

/-! ## C2: resolution atomicity -/

/-- An unresolvable agent name anywhere in the step list aborts the whole
conversion. -/
theorem convertSteps_eq_none (cache : List (String × String))
    (steps : List WorkflowStep)
    (h : ∃ s ∈ steps, lookupStr cache s.agent_name = none) :
    convertSteps cache steps = none := by
  induction steps with
  | nil => simp at h
  | cons s rest ih =>
      rcases h with ⟨t, ht, hl⟩
      rcases List.mem_cons.mp ht with rfl | hmem
      · simp [convertSteps, hl]
      · unfold convertSteps
        cases hc : lookupStr cache s.agent_name with
        | none => rfl
        | some aid =>
            by_cases ha : aid = ""
            · simp [ha]
            · simp [ha, ih ⟨t, hmem, hl⟩]

/-- C2 amended: on the `SimpleWorkflowClient` register-and-execute path
(and the updated demo's enhanced streaming path built on it), a workflow
containing a step whose `agent_name` is absent from the agent directory
cache fails atomically during conversion - `_convert_workflow_to_api`
returns `None` and zero network requests (registration or otherwise)
are issued. The `SequentialWorkflowDemo` path does not satisfy this
(see the counterexample). -/
theorem resolution_atomicity_client (cache : List (String × String))
    (w : SimpleWorkflow) (reg : Nat × Nat × Nat) (syncStatus : Nat)
    (syncBody? : Option Json) (jl : String → Option Json)
    (reg1 : Nat × Nat × Nat) (resp : StreamResponse) (stStatus : Nat)
    (stBody? : Option Json) (sStatus : Nat) (sBody? : Option Json)
    (h : ∃ s ∈ w.steps, lookupStr cache s.agent_name = none) :
    convertWorkflowToApi cache w = none
    ∧ clientExecuteSync cache w reg syncStatus syncBody? = (none, [])
    ∧ executeWithEnhancedStreaming jl cache w reg1 resp stStatus stBody?
        sStatus sBody? = (none, []) := by
  have hc : convertWorkflowToApi cache w = none := by
    unfold convertWorkflowToApi
    rw [convertSteps_eq_none cache w.steps h]
    rfl
  refine ⟨hc, ?_, ?_⟩
  · unfold clientExecuteSync
    rw [hc]
  · unfold executeWithEnhancedStreaming
    rw [hc]

/-- C2 counterexample: on the `SequentialWorkflowDemo` path,
`update_workflow_with_agent_ids` with an empty agent mapping leaves the
unresolvable name in place and `register_workflow_with_cleanup` still
issues the registration POST - one registration network call occurs
instead of the claimed zero, and the path reports success. -/
theorem demo_registers_unresolved_agent :
    updateWorkflowWithAgentIds [] [ghostStep] = [ghostStep]
    ∧ demoRegisterWithCleanup [] "w1" [ghostStep] 201 200 0 0 0 =
        (true, [WfRequest.postRegister "w1", WfRequest.getWorkflow "w1"])
    ∧ countRegister (demoRegisterWithCleanup [] "w1" [ghostStep] 201 200 0 0 0).2 = 1 :=
  ⟨rfl, rfl, rfl⟩

/-- C2 witness: the atomic abort at the concrete one-step workflow whose
agent is absent from an empty cache. -/
theorem resolution_atomicity_client_witness :
    convertWorkflowToApi [] ghostWorkflow = none
    ∧ clientExecuteSync [] ghostWorkflow (201, 200, 200) 200 none = (none, [])
    ∧ executeWithEnhancedStreaming (fun _ => none) [] ghostWorkflow (201, 200, 200)
        { status := 200, contentType := "text/event-stream", body := "" } 200 none
        200 none = (none, []) :=
  resolution_atomicity_client [] ghostWorkflow (201, 200, 200) 200 none
    (fun _ => none) (201, 200, 200)
    { status := 200, contentType := "text/event-stream", body := "" } 200 none
    200 none ⟨{ step_id := "s1", agent_name := "ghost", prompt := "p" },
      by simp [ghostWorkflow], rfl⟩

/-! ## C8: non-200 on the synchronous execute is terminal, no retry -/

/-- C8: for the synchronous execution strategy - both
`SimpleWorkflowClient._execute_sync` and the demo's `execute_workflow` -
every response status other than 200 yields an immediate `None` failure
and the trace holds exactly the one execute POST: no retry is issued. -/
theorem sync_non200_terminal (wid : String) (status : Nat) (body? : Option Json)
    (execMs : Rat) (h : status ≠ 200) :
    executeSyncSimple wid status body? = (none, [WfRequest.postExecuteSync wid])
    ∧ demoExecuteWorkflow wid execMs status body? = (none, [WfRequest.postExecuteSync wid])
    ∧ countSync (executeSyncSimple wid status body?).2 = 1
    ∧ countExecute (demoExecuteWorkflow wid execMs status body?).2 = 1 := by
  have hb : (status == 200) = false := by
    simp [h]
  refine ⟨?_, ?_, ?_, ?_⟩
  · unfold executeSyncSimple
    rw [hb]
    rfl
  · unfold demoExecuteWorkflow
    rw [hb]
    rfl
  · rfl
  · rfl

/-- C8 witness: a 500 response on the execute endpoint. -/
theorem sync_non200_terminal_witness :
    executeSyncSimple "w1" 500 none = (none, [WfRequest.postExecuteSync "w1"])
    ∧ demoExecuteWorkflow "w1" 5 500 none = (none, [WfRequest.postExecuteSync "w1"])
    ∧ countSync (executeSyncSimple "w1" 500 none).2 = 1
    ∧ countExecute (demoExecuteWorkflow "w1" 5 500 none).2 = 1 :=
  sync_non200_terminal "w1" 500 none 5 (by decide)

/-! ## Normalizer lemmas -/

/-- Backfilling one key leaves every other key's lookup unchanged. -/
theorem getVal_backfill_ne (l : List (String × Json)) (k : String) (v : Json)
    (p : String) (h : p ≠ k) : getVal (backfill l k v) p = getVal l p := by
  unfold backfill
  split
  · exact getVal_setVal_ne l k v p h
  · rfl

/-- The metadata backfills leave every other key's lookup unchanged. -/
theorem getVal_metaFill_ne (wid : String) (execMs : Rat)
    (r0 : List (String × Json)) (p : String)
    (h1 : p ≠ "total_execution_time_ms") (h2 : p ≠ "workflow_id")
    (h3 : p ≠ "workflow_name") :
    getVal (metaFill wid execMs r0) p = getVal r0 p := by
  unfold metaFill
  rw [getVal_backfill_ne _ _ _ _ h3, getVal_backfill_ne _ _ _ _ h2,
      getVal_backfill_ne _ _ _ _ h1]

/-- After the fallback fill, `step_results` is the first present probe key. -/
theorem getVal_fillStepResults_step_results (r3 : List (String × Json)) :
    getVal (fillStepResults r3) "step_results" = probeFirst r3 := by
  unfold fillStepResults probeFirst
  cases hsr : getVal r3 "step_results" with
  | some v => simp [hsr]
  | none =>
      simp only [hsr, Option.isNone_none, if_true]
      cases h1 : getVal r3 "steps" with
      | some v => simp [getVal_setVal_self]
      | none =>
          cases h2 : getVal r3 "executed_steps" with
          | some v => simp [getVal_setVal_self]
          | none =>
              cases h3 : getVal r3 "results" with
              | some v => simp [getVal_setVal_self]
              | none => simp [hsr]

/-- The fallback fill leaves every key other than `step_results` unchanged. -/
theorem getVal_fillStepResults_ne (r3 : List (String × Json)) (p : String)
    (h : p ≠ "step_results") :
    getVal (fillStepResults r3) p = getVal r3 p := by
  unfold fillStepResults
  split
  · cases getVal r3 "steps" with
    | some v => exact getVal_setVal_ne r3 _ v p h
    | none =>
        cases getVal r3 "executed_steps" with
        | some v => exact getVal_setVal_ne r3 _ v p h
        | none =>
            cases getVal r3 "results" with
            | some v => exact getVal_setVal_ne r3 _ v p h
            | none => rfl
  · rfl

/-- The probe is insensitive to the three metadata backfills. -/
theorem probeFirst_metaFill (wid : String) (execMs : Rat)
    (u : List (String × Json)) :
    probeFirst (metaFill wid execMs u) = probeFirst u := by
  unfold probeFirst
  rw [getVal_metaFill_ne wid execMs u "step_results" (by decide) (by decide) (by decide),
      getVal_metaFill_ne wid execMs u "steps" (by decide) (by decide) (by decide),
      getVal_metaFill_ne wid execMs u "executed_steps" (by decide) (by decide) (by decide),
      getVal_metaFill_ne wid execMs u "results" (by decide) (by decide) (by decide)]

/-- The demo normalizer's `step_results` is exactly the first present key
of the probe order applied to the unwrapped body. -/
theorem normalizeDemo_step_results (wid : String) (execMs : Rat)
    (body : List (String × Json)) :
    getVal (normalizeDemo wid execMs body) "step_results"
      = probeFirst (unwrapDataObj body) := by
  unfold normalizeDemo
  rw [getVal_fillStepResults_step_results, probeFirst_metaFill]

/-! ## C6: data unwrap and probe order -/

/-- C6: the demo normalizer first unwraps one `data` envelope (a dict
`data` value replaces the body), then determines `step_results` by
probing `step_results`, `steps`, `executed_steps`, `results` in exactly
that order with the first present key winning - for every body, the
normalized `step_results` equals the value at the earliest present probe
key of the unwrapped body. -/
theorem normalizer_probe_order (wid : String) (execMs : Rat)
    (body : List (String × Json)) :
    (∀ d, getVal body "data" = some (Json.obj d) → unwrapDataObj body = d)
    ∧ getVal (normalizeDemo wid execMs body) "step_results"
        = probeFirst (unwrapDataObj body) := by
  constructor
  · intro d hd
    unfold unwrapDataObj
    rw [hd]
  · exact normalizeDemo_step_results wid execMs body

/-- C6 witness: with both `steps` and `results` present under a `data`
envelope, the unwrap strips the envelope and the earlier probe key
(`steps`) determines `step_results`. -/
theorem normalizer_probe_order_witness :
    unwrapDataObj multiKeyBody
        = [("steps", Json.str "FROM_STEPS"), ("results", Json.str "FROM_RESULTS")]
    ∧ getVal (normalizeDemo "w1" 5 multiKeyBody) "step_results"
        = some (Json.str "FROM_STEPS") :=
  ⟨(normalizer_probe_order "w1" 5 multiKeyBody).1
      [("steps", Json.str "FROM_STEPS"), ("results", Json.str "FROM_RESULTS")] rfl,
   ((normalizer_probe_order "w1" 5 multiKeyBody).2).trans rfl⟩

/-! ## C3: normalizer totality -/

/-- C3 counterexample: normalizing the empty 200 body (none of the four
step-collection keys present) yields a result with *no* `step_results`
mapping at all - not an empty one - and no top-level `success` either,
contradicting the claimed shape guarantee. -/
theorem normalizer_missing_keys_counterexample :
    (getVal (normalizeDemo "w1" 5 []) "step_results").isNone = true
    ∧ (getVal (normalizeDemo "w1" 5 []) "success").isNone = true :=
  ⟨rfl, rfl⟩

/-- C3 amended: for every 200 dict body the demo's normalization is total
(a Lean function on all dict bodies) and returns a non-null dict; its
`step_results` entry is present exactly when one of the four probe keys
is present in the unwrapped body (when none is present the result lacks
`step_results` instead of containing an empty mapping), and a top-level
`success` is present only when the unwrapped body already carried it -
the normalizer never adds one. -/
theorem normalizer_amended_totality (wid : String) (execMs : Rat)
    (body : List (String × Json)) :
    ((getVal (normalizeDemo wid execMs body) "step_results").isSome
        = (probeFirst (unwrapDataObj body)).isSome)
    ∧ getVal (normalizeDemo wid execMs body) "success"
        = getVal (unwrapDataObj body) "success"
    ∧ (demoExecuteWorkflow wid execMs 200 (some (Json.obj body))).1
        = some (Json.obj (normalizeDemo wid execMs body)) := by
  refine ⟨?_, ?_, ?_⟩
  · rw [normalizeDemo_step_results]
  · unfold normalizeDemo
    rw [getVal_fillStepResults_ne _ _ (by decide),
        getVal_metaFill_ne _ _ _ _ (by decide) (by decide) (by decide)]
  · rfl

/-! ## C5: non-event-stream responses on the streaming endpoint -/

/-- The display gate is harmless on dict results. -/
theorem finalOutputGate_obj (l : List (String × Json)) :
    finalOutputGate (Json.obj l) = some (Json.obj l) := by
  cases l <;> simp [finalOutputGate, pyTruthy]

/-- C5 amended: in the updated demo's streaming engine
(`_stream_workflow_execution`), a 200 response whose content type is not
an event-stream is handled by parsing the entire body as one JSON
document and returning its `data`-unwrapped value with no error and no
further requests - the SSE line loop and the fallback ladder are never
entered. (The simple client's `_execute_streaming` does not do this: see
the counterexample.) -/
theorem stream_non_sse_json_document (jl : String → Option Json) (wid : String)
    (resp : StreamResponse) (stStatus : Nat) (stBody? : Option Json)
    (syncStatus : Nat) (syncBody? : Option Json) (fs : List (String × Json))
    (h200 : resp.status = 200)
    (hct : strContains (pyLower resp.contentType) "text/event-stream" = false)
    (hbody : ¬ pyStrip resp.body = "")
    (hparse : jl resp.body = some (Json.obj fs))
    (hdata : getVal fs "data" = none ∨ ∃ d, getVal fs "data" = some (Json.obj d)) :
    streamWorkflowExecution jl wid resp stStatus stBody? syncStatus syncBody?
      = (some (unwrapDataGuarded (Json.obj fs)), [WfRequest.postExecuteStream wid]) := by
  have hstep : streamWorkflowExecution jl wid resp stStatus stBody? syncStatus syncBody?
      = (nonSseResult jl resp.body, [WfRequest.postExecuteStream wid]) := by
    unfold streamWorkflowExecution
    rw [show (resp.status != 200) = false by simp [h200], hct]
    rfl
  have hfr : pyUnwrapData (Json.obj fs) = some (unwrapDataGuarded (Json.obj fs)) := rfl
  have hobj : ∃ l, unwrapDataGuarded (Json.obj fs) = Json.obj l := by
    rcases hdata with hnone | ⟨d, hd⟩
    · exact ⟨fs, by simp [unwrapDataGuarded, hnone]⟩
    · exact ⟨d, by simp [unwrapDataGuarded, hd]⟩
  rcases hobj with ⟨l, hl⟩
  have hnon : nonSseResult jl resp.body = some (unwrapDataGuarded (Json.obj fs)) := by
    unfold nonSseResult
    rw [if_neg hbody, hparse]
    show (match pyUnwrapData (Json.obj fs) with
          | none => none
          | some fr => finalOutputGate fr) = some (unwrapDataGuarded (Json.obj fs))
    rw [hfr, hl]
    exact finalOutputGate_obj l
  rw [hstep, hnon]

/-- C5 witness: content type `application/json` (not an event-stream)
with the scenario body - the engine returns that body with no error
after one streaming POST. -/
theorem stream_non_sse_json_document_witness :
    streamWorkflowExecution scenarioLoads "w1"
        { status := 200, contentType := "application/json", body := scenarioBodyText }
        500 none 500 none
      = (some (unwrapDataGuarded scenarioJson), [WfRequest.postExecuteStream "w1"]) :=
  stream_non_sse_json_document scenarioLoads "w1"
    { status := 200, contentType := "application/json", body := scenarioBodyText }
    500 none 500 none [("success", Json.bool true), ("step_results", Json.obj [])]
    rfl (by decide) (by decide) rfl (Or.inl rfl)

/-- C5 counterexample: `SimpleWorkflowClient._execute_streaming` performs
no content-type check - on the scenario's `application/json` response it
feeds the body to the SSE line parser, which (with or without a trailing
newline) never yields a dict, so the call returns `None` instead of the
body's JSON document. -/
theorem simple_streaming_ignores_content_type :
    executeStreamingSimple scenarioLoads "w1" 200 scenarioBodyText
        = (none, [WfRequest.postExecuteStream "w1"])
    ∧ executeStreamingSimple scenarioLoads "w1" 200 (scenarioBodyText ++ "\n")
        = (none, [WfRequest.postExecuteStream "w1"]) :=
  ⟨rfl, rfl⟩

/-! ## C7: token buffering in the SSE state machine -/

/-- A successful string-equality test pins the JSON value. -/
theorem isStr_eq {j : Json} {a : String} (h : j.isStr a = true) : j = Json.str a := by
  cases j <;> simp_all [Json.isStr]

/-- String append is associative. -/
theorem strAppend_assoc (a b c : String) : a ++ b ++ c = a ++ (b ++ c) := by
  cases a with
  | mk d1 =>
      cases b with
      | mk d2 =>
          cases c with
          | mk d3 =>
              show String.mk (d1 ++ d2 ++ d3) = String.mk (d1 ++ (d2 ++ d3))
              rw [List.append_assoc]

/-- A line with a recognized append fragment advances the machine by
exactly that append. -/
theorem processLine_append (jl : String → Option Json) (st : StreamState)
    (rawLine : String) (s : String) (h : lineAppend jl rawLine = some s) :
    processLine jl st rawLine
      = Except.ok { st with currentOutput := st.currentOutput ++ s } := by
  unfold lineAppend at h
  unfold processLine
  dsimp only at h ⊢
  cases h1 : pyStartsWith (pyStrip rawLine) "data:" with
  | false => simp only [h1] at h; simp at h
  | true =>
      simp only [h1, eq_self_iff_true, if_true] at h ⊢
      cases hjl : jl (pyStrip (pyDropChars (pyStrip rawLine) 5)) with
      | none =>
          simp only [hjl] at h ⊢
          by_cases h2 : (decide (pyStrip (pyDropChars (pyStrip rawLine) 5) ≠ "")
              && decide (pyStrip (pyDropChars (pyStrip rawLine) 5) ≠ "[DONE]")) = true
          · simp only [h2, eq_self_iff_true, if_true] at h ⊢
            cases h
            rfl
          · simp only [if_neg h2] at h
            cases h
      | some ev =>
          simp only [hjl] at h ⊢
          cases ev with
          | obj fs =>
              by_cases h4 : (((getVal fs "type").getD (Json.str "unknown")).isStr "llm_token"
                  || ((getVal fs "type").getD (Json.str "unknown")).isStr "token") = true
              · have hE : (getVal fs "type").getD (Json.str "unknown") = Json.str "llm_token"
                    ∨ (getVal fs "type").getD (Json.str "unknown") = Json.str "token" := by
                  rcases Bool.or_eq_true .. |>.mp h4 with h5 | h5
                  · exact Or.inl (isStr_eq h5)
                  · exact Or.inr (isStr_eq h5)
                rcases hE with hE | hE <;>
                  (simp only [hE, Json.isStr] at h ⊢
                   simp at h ⊢
                   cases hT : (getVal fs "token").getD ((getVal fs "content").getD (Json.str ""))
                     with
                   | str s0 =>
                       simp only [hT] at h ⊢
                       by_cases hs0 : s0 = ""
                       · simp [hs0] at h
                       · simp only [if_neg hs0] at h
                         cases h
                         simp [pyTruthy, hs0]
                   | _ => simp only [hT] at h; simp at h)
              · replace h4 : (((getVal fs "type").getD (Json.str "unknown")).isStr "llm_token"
                    || ((getVal fs "type").getD (Json.str "unknown")).isStr "token") = false :=
                  Bool.eq_false_iff.mpr h4
                by_cases h5 : (((getVal fs "type").getD (Json.str "unknown")).isStr "llm_output"
                    || ((getVal fs "type").getD (Json.str "unknown")).isStr "output") = true
                · have hE : (getVal fs "type").getD (Json.str "unknown") = Json.str "llm_output"
                      ∨ (getVal fs "type").getD (Json.str "unknown") = Json.str "output" := by
                    rcases Bool.or_eq_true .. |>.mp h5 with h6 | h6
                    · exact Or.inl (isStr_eq h6)
                    · exact Or.inr (isStr_eq h6)
                  rcases hE with hE | hE <;>
                    (simp only [hE, Json.isStr] at h ⊢
                     simp at h ⊢
                     cases hT : (getVal fs "output").getD ((getVal fs "content").getD (Json.str ""))
                       with
                     | str s0 =>
                         simp only [hT] at h ⊢
                         by_cases hs0 : s0 = ""
                         · simp [hs0] at h
                         · simp only [if_neg hs0] at h
                           cases h
                           simp [pyTruthy, hs0]
                     | _ => simp only [hT] at h; simp at h)
                · simp only [h4, h5] at h
                  simp at h
          | null => simp at h
          | bool b => simp at h
          | num q => simp at h
          | str t => simp at h
          | arr xs => simp at h

/-- A run over lines that each append a recognized fragment buffers
exactly their concatenation, in arrival order. -/
theorem runStreamFrom_appends (jl : String → Option Json) (lines ss : List String)
    (h : List.Forall₂ (fun l s => lineAppend jl l = some s) lines ss) :
    ∀ st : StreamState, runStreamFrom jl st lines
      = Except.ok { st with currentOutput := st.currentOutput ++ concatAll ss } := by
  induction h with
  | nil =>
      intro st
      show Except.ok st = _
      rw [show st.currentOutput ++ concatAll [] = st.currentOutput from
        String.append_empty _]
  | @cons l s ls ss' h1 h2 ih =>
      intro st
      show (processLine jl st l >>= fun st' => List.foldlM (processLine jl) st' ls) = _
      rw [processLine_append jl st l s h1]
      show runStreamFrom jl { st with currentOutput := st.currentOutput ++ s } ls = _
      rw [ih { st with currentOutput := st.currentOutput ++ s }]
      show Except.ok _ = _
      rw [show st.currentOutput ++ s ++ concatAll ss' = st.currentOutput ++ concatAll (s :: ss')
        from strAppend_assoc _ _ _]

/-- C7 amended: between `step_start` and the matching `step_complete`,
every `token`/`llm_token` and `output`/`llm_output` event appends its
(truthy string) payload to the active step's buffer, and an unparseable
`data:` payload is appended as raw text *unless* it is empty or the
literal `'[DONE]'` sentinel, which the loop deliberately drops; appends
accumulate in arrival order, and after `step_start` and tokens `a`, `b`,
`c` the buffered output is exactly `"abc"` (with no terminal result
captured, so the fallback path will follow). -/
theorem stream_buffer_order (jl : String → Option Json) :
    (∀ (st : StreamState) (rawLine s : String), lineAppend jl rawLine = some s →
        processLine jl st rawLine
          = Except.ok { st with currentOutput := st.currentOutput ++ s })
    ∧ (∀ (lines ss : List String) (st : StreamState),
        List.Forall₂ (fun l s => lineAppend jl l = some s) lines ss →
        runStreamFrom jl st lines
          = Except.ok { st with currentOutput := st.currentOutput ++ concatAll ss })
    ∧ runStream scenarioEventLoads scenarioLines
        = Except.ok { currentStep := none, currentOutput := "abc",
                      finalResult := none, stepCounter := 1 } := by
  refine ⟨?_, ?_, ?_⟩
  · intro st rawLine s h
    exact processLine_append jl st rawLine s h
  · intro lines ss st h
    exact runStreamFrom_appends jl lines ss h st
  · rfl

/-- C7 witness: a raw unparseable payload and a two-fragment ordered run,
at concrete lines. -/
theorem stream_buffer_order_witness :
    processLine (fun _ => none) StreamState.init "data: hello"
      = Except.ok { StreamState.init with
          currentOutput := StreamState.init.currentOutput ++ "hello" }
    ∧ runStreamFrom (fun _ => none) StreamState.init ["data: hell", "data: o"]
        = Except.ok { StreamState.init with
            currentOutput := StreamState.init.currentOutput ++ concatAll ["hell", "o"] } :=
  ⟨(stream_buffer_order (fun _ => none)).1 StreamState.init "data: hello" "hello" rfl,
   (stream_buffer_order (fun _ => none)).2.1 ["data: hell", "data: o"] ["hell", "o"]
     StreamState.init
     (List.Forall₂.cons rfl (List.Forall₂.cons rfl List.Forall₂.nil))⟩

/-- C7 counterexample: the `data: [DONE]` payload fails JSON parsing but
is *not* appended to the active step's buffer - the loop's
`data_content != '[DONE]'` guard drops it, so the buffer after
`step_start`, token `a`, raw `[DONE]`, token `b` is `"ab"`, not the
`"a[DONE]b"` the claim's never-dropped rule demands. -/
theorem stream_drops_done_sentinel :
    runStream scenarioEventLoads doneLines
      = Except.ok { currentStep := none, currentOutput := "ab",
                    finalResult := none, stepCounter := 1 }
    ∧ ("ab" : String) ≠ "a[DONE]b" :=
  ⟨rfl, by decide⟩

/-! ## C4: the fallback ladder and its call bound -/

/-- Stream counts add over trace concatenation. -/
theorem countStream_append (a b : List WfRequest) :
    countStream (a ++ b) = countStream a + countStream b := by
  simp [countStream, List.filter_append]

/-- Sync counts add over trace concatenation. -/
theorem countSync_append (a b : List WfRequest) :
    countSync (a ++ b) = countSync a + countSync b := by
  simp [countSync, List.filter_append]

/-- Registration traffic contains no execute invocations. -/
theorem register_trace_counts (wid : String) (s1 s2 s3 : Nat) :
    countStream (registerWithCleanup wid s1 s2 s3).2 = 0
    ∧ countSync (registerWithCleanup wid s1 s2 s3).2 = 0 := by
  unfold registerWithCleanup
  repeat' split
  all_goals simp [countStream, countSync]

/-- The ladder inside `_stream_workflow_execution` issues its requests in
the fixed order stream, then status GET, then sync, each at most once. -/
theorem streamWE_shape (jl : String → Option Json) (wid : String)
    (resp : StreamResponse) (stStatus : Nat) (stBody? : Option Json)
    (syncStatus : Nat) (syncBody? : Option Json) :
    (streamWorkflowExecution jl wid resp stStatus stBody? syncStatus syncBody?).2
        = [WfRequest.postExecuteStream wid]
    ∨ (streamWorkflowExecution jl wid resp stStatus stBody? syncStatus syncBody?).2
        = [WfRequest.postExecuteStream wid, WfRequest.getStatus wid]
    ∨ (streamWorkflowExecution jl wid resp stStatus stBody? syncStatus syncBody?).2
        = [WfRequest.postExecuteStream wid, WfRequest.getStatus wid,
           WfRequest.postExecuteSync wid] := by
  unfold streamWorkflowExecution
  repeat' split
  all_goals simp

/-- The inner ladder makes exactly one streaming and at most one sync
attempt. -/
theorem streamWE_counts (jl : String → Option Json) (wid : String)
    (resp : StreamResponse) (stStatus : Nat) (stBody? : Option Json)
    (syncStatus : Nat) (syncBody? : Option Json) :
    countStream (streamWorkflowExecution jl wid resp stStatus stBody? syncStatus syncBody?).2 = 1
    ∧ countSync (streamWorkflowExecution jl wid resp stStatus stBody? syncStatus syncBody?).2 ≤ 1 := by
  rcases streamWE_shape jl wid resp stStatus stBody? syncStatus syncBody? with h | h | h <;>
    rw [h] <;> exact ⟨rfl, by simp [countSync]⟩

/-- The sync client path makes no streaming and at most one sync attempt. -/
theorem clientExecuteSync_counts (cache : List (String × String)) (w : SimpleWorkflow)
    (reg : Nat × Nat × Nat) (syncStatus : Nat) (syncBody? : Option Json) :
    countStream (clientExecuteSync cache w reg syncStatus syncBody?).2 = 0
    ∧ countSync (clientExecuteSync cache w reg syncStatus syncBody?).2 ≤ 1 := by
  unfold clientExecuteSync
  cases hc : convertWorkflowToApi cache w with
  | none =>
      constructor
      · show countStream ([] : List WfRequest) = 0
        rfl
      · show countSync ([] : List WfRequest) ≤ 1
        decide
  | some api =>
      rcases hr : registerWithCleanup w.workflow_id reg.1 reg.2.1 reg.2.2 with ⟨ok, regReqs⟩
      have hreg := register_trace_counts w.workflow_id reg.1 reg.2.1 reg.2.2
      rw [hr] at hreg
      simp only [hr]
      have hr1 : countStream regReqs = 0 := hreg.1
      have hr2 : countSync regReqs = 0 := hreg.2
      cases ok with
      | false =>
          constructor
          · show countStream regReqs = 0
            exact hr1
          · show countSync regReqs ≤ 1
            omega
      | true =>
          constructor
          · show countStream (regReqs ++ (executeSyncSimple w.workflow_id syncStatus syncBody?).2) = 0
            rw [countStream_append, hr1]
            rfl
          · show countSync (regReqs ++ (executeSyncSimple w.workflow_id syncStatus syncBody?).2) ≤ 1
            rw [countSync_append, hr2]
            have h1 : countSync (executeSyncSimple w.workflow_id syncStatus syncBody?).2 = 1 := rfl
            omega

/-- The enhanced streaming path makes at most one streaming and one sync
attempt. -/
theorem enhancedStream_counts (jl : String → Option Json)
    (cache : List (String × String)) (w : SimpleWorkflow) (reg : Nat × Nat × Nat)
    (resp : StreamResponse) (stStatus : Nat) (stBody? : Option Json)
    (syncStatus : Nat) (syncBody? : Option Json) :
    countStream (executeWithEnhancedStreaming jl cache w reg resp stStatus stBody?
        syncStatus syncBody?).2 ≤ 1
    ∧ countSync (executeWithEnhancedStreaming jl cache w reg resp stStatus stBody?
        syncStatus syncBody?).2 ≤ 1 := by
  unfold executeWithEnhancedStreaming
  cases hc : convertWorkflowToApi cache w with
  | none => simp [countStream, countSync]
  | some api =>
      rcases hr : registerWithCleanup w.workflow_id reg.1 reg.2.1 reg.2.2 with ⟨ok, regReqs⟩
      have hreg := register_trace_counts w.workflow_id reg.1 reg.2.1 reg.2.2
      rw [hr] at hreg
      have hr1 : countStream regReqs = 0 := hreg.1
      have hr2 : countSync regReqs = 0 := hreg.2
      simp only [hr]
      cases ok with
      | false =>
          constructor
          · show countStream regReqs ≤ 1
            omega
          · show countSync regReqs ≤ 1
            omega
      | true =>
          rcases hs : streamWorkflowExecution jl w.workflow_id resp stStatus stBody?
              syncStatus syncBody? with ⟨r, sreqs⟩
          have hstr := streamWE_counts jl w.workflow_id resp stStatus stBody?
            syncStatus syncBody?
          rw [hs] at hstr
          simp only [hs]
          have hstr1 : countStream sreqs = 1 := hstr.1
          have hstr2 : countSync sreqs ≤ 1 := hstr.2
          constructor
          · show countStream (regReqs ++ sreqs) ≤ 1
            rw [countStream_append]
            omega
          · show countSync (regReqs ++ sreqs) ≤ 1
            rw [countSync_append]
            omega

/-- C4 amended: inside `_stream_workflow_execution` the strategies run in
the fixed order streaming, then one status GET, then one synchronous
execute, with at most one streaming and one synchronous attempt (at most
two execute invocations); but `_execute_workflow_with_enhanced_output`
retries the whole operation through `client.execute_workflow` when that
ladder yields no result, so the full enhanced call can issue up to two
synchronous attempts and three execute invocations in total - the
claimed two-invocation bound holds only for the inner ladder, not for
the enhanced execute path (see the counterexample). -/
theorem fallback_ladder_bound (jl : String → Option Json)
    (cache : List (String × String)) (w : SimpleWorkflow) (wid : String)
    (resp : StreamResponse) (stStatus : Nat) (stBody? : Option Json)
    (syncStatus : Nat) (syncBody? : Option Json)
    (reg1 reg2 : Nat × Nat × Nat) (s2Status : Nat) (s2Body? : Option Json) :
    ((streamWorkflowExecution jl wid resp stStatus stBody? syncStatus syncBody?).2
        = [WfRequest.postExecuteStream wid]
      ∨ (streamWorkflowExecution jl wid resp stStatus stBody? syncStatus syncBody?).2
          = [WfRequest.postExecuteStream wid, WfRequest.getStatus wid]
      ∨ (streamWorkflowExecution jl wid resp stStatus stBody? syncStatus syncBody?).2
          = [WfRequest.postExecuteStream wid, WfRequest.getStatus wid,
             WfRequest.postExecuteSync wid])
    ∧ countExecute (streamWorkflowExecution jl wid resp stStatus stBody?
        syncStatus syncBody?).2 ≤ 2
    ∧ countStream (enhancedOutputExecute jl cache w reg1 resp stStatus stBody?
        syncStatus syncBody? reg2 s2Status s2Body?).2 ≤ 1
    ∧ countSync (enhancedOutputExecute jl cache w reg1 resp stStatus stBody?
        syncStatus syncBody? reg2 s2Status s2Body?).2 ≤ 2
    ∧ countExecute (enhancedOutputExecute jl cache w reg1 resp stStatus stBody?
        syncStatus syncBody? reg2 s2Status s2Body?).2 ≤ 3 := by
  have hinner := streamWE_counts jl wid resp stStatus stBody? syncStatus syncBody?
  have h1 := enhancedStream_counts jl cache w reg1 resp stStatus stBody? syncStatus syncBody?
  have h2 := clientExecuteSync_counts cache w reg2 s2Status s2Body?
  have henh : countStream (enhancedOutputExecute jl cache w reg1 resp stStatus stBody?
        syncStatus syncBody? reg2 s2Status s2Body?).2 ≤ 1
      ∧ countSync (enhancedOutputExecute jl cache w reg1 resp stStatus stBody?
          syncStatus syncBody? reg2 s2Status s2Body?).2 ≤ 2 := by
    unfold enhancedOutputExecute
    rcases he : executeWithEnhancedStreaming jl cache w reg1 resp stStatus stBody?
        syncStatus syncBody? with ⟨r1, reqs1⟩
    rw [he] at h1
    have h1a : countStream reqs1 ≤ 1 := h1.1
    have h1b : countSync reqs1 ≤ 1 := h1.2
    cases r1 with
    | some r =>
        constructor
        · show countStream reqs1 ≤ 1
          exact h1a
        · show countSync reqs1 ≤ 2
          omega
    | none =>
        rcases hc : clientExecuteSync cache w reg2 s2Status s2Body? with ⟨r2, reqs2⟩
        rw [hc] at h2
        have h2a : countStream reqs2 = 0 := h2.1
        have h2b : countSync reqs2 ≤ 1 := h2.2
        simp only [hc]
        constructor
        · show countStream (reqs1 ++ reqs2) ≤ 1
          rw [countStream_append]
          omega
        · show countSync (reqs1 ++ reqs2) ≤ 2
          rw [countSync_append]
          omega
  have ha := henh.1
  have hb := henh.2
  have hia : countStream (streamWorkflowExecution jl wid resp stStatus stBody?
      syncStatus syncBody?).2 = 1 := hinner.1
  have hib : countSync (streamWorkflowExecution jl wid resp stStatus stBody?
      syncStatus syncBody?).2 ≤ 1 := hinner.2
  refine ⟨streamWE_shape jl wid resp stStatus stBody? syncStatus syncBody?, ?_, ha, hb, ?_⟩
  · unfold countExecute
    omega
  · unfold countExecute
    omega

/-- C4 counterexample: a stream with no terminal result, a failing status
GET and a failing inner sync attempt make the enhanced execute path fall
back to `client.execute_workflow`, which registers again and issues a
*second* synchronous execute - three execute invocations and two
synchronous attempts in one call, against the claimed at-most-twice /
at-most-one-sync bound. -/
theorem fallback_three_executes :
    (enhancedOutputExecute (fun _ => none) writerCache writerWorkflow
        (201, 200, 200) emptyStreamResp 500 none 500 none (201, 200, 200) 200
        (some (Json.obj []))).2
      = [WfRequest.postRegister "w1", WfRequest.postExecuteStream "w1",
         WfRequest.getStatus "w1", WfRequest.postExecuteSync "w1",
         WfRequest.postRegister "w1", WfRequest.postExecuteSync "w1"]
    ∧ countExecute (enhancedOutputExecute (fun _ => none) writerCache writerWorkflow
        (201, 200, 200) emptyStreamResp 500 none 500 none (201, 200, 200) 200
        (some (Json.obj []))).2 = 3
    ∧ countSync (enhancedOutputExecute (fun _ => none) writerCache writerWorkflow
        (201, 200, 200) emptyStreamResp 500 none 500 none (201, 200, 200) 200
        (some (Json.obj []))).2 = 2 :=
  ⟨rfl, rfl, rfl⟩

end Kolosal
